import Mathlib

/-!
Verification of `pele/rates/_rates.py` (`RateCalculation`).

The module computes transition rates between a reactant set `A` and a product
set `B` over a transition-state graph whose nodes are minima and whose edges
carry transition-state data.  We embed the class shallowly:

* numeric node/edge attributes (`energy`, `pgorder`, `fvib`) are modelled as
  rationals (every Python float is a rational); the rate formulas, which apply
  `log`/`exp`/`pi`, land in `ℝ`;
* the `networkx` graph is a finite node set plus a finite set of undirected
  edges, each stored once as an oriented triple `(min1, min2, ts)`, mirroring
  `edges_iter` which yields each undirected edge once with one orientation;
* Python exceptions are an explicit error type and each method that can raise
  returns `Except`;
* minima are identified by their stable integer `_id`; as in the data model
  distinct minima are assumed to carry distinct ids, so the Python dicts keyed
  by `_id` are modelled as association lists of `(id, value)` pairs;
* `iter(self.A).next()` picks an unspecified element of the set `A`; since
  Python set iteration order is unspecified, the chosen anchor is passed to
  `reduce_tsgraph` explicitly.
-/

namespace PeleRates

/-- A minimum of the energy landscape: a node of the transition-state graph.
Identity is the stable integer index `id` (`_id` in the source). -/
structure Minimum where
  id : ℕ
  energy : ℚ
  pgorder : ℚ
  fvib : ℚ
  invalid : Bool
deriving DecidableEq, Repr

/-- The transition-state data attached to an edge (`data["ts"]`). -/
structure TransitionState where
  energy : ℚ
  pgorder : ℚ
  fvib : ℚ
  invalid : Bool
deriving DecidableEq, Repr

/-- An undirected `networkx` graph with minima as nodes and a transition
state on each edge.  Each undirected edge is stored once, in one
orientation, as `(min1, min2, ts)`. -/
structure TSGraph where
  nodes : Finset Minimum
  edges : Finset (Minimum × Minimum × TransitionState)
deriving DecidableEq

/-- The Python exceptions the embedded methods can raise. -/
inductive PyErr where
  /-- `raise ValueError(...)` in `__init__`. -/
  | valueError
  /-- `TypeError`, e.g. `len(None)` after a set became `None`. -/
  | typeError
  /-- a failing `assert`. -/
  | assertionError
  /-- `KeyError` from `nx.node_connected_component` when the source node is
  not in the graph. -/
  | keyError
  /-- `StopIteration` from `iter(s).next()` on an empty set. -/
  | stopIteration
  /-- `raise Exception("the product set B is empty or not connected to A")`. -/
  | exceptionProductSet
  /-- `ValueError` from `max()` of an empty sequence. -/
  | maxOfEmpty
deriving DecidableEq, Repr

/-- The state of a `RateCalculation` instance after `__init__`:
`self.tsgraph`, `self.A`, `self.B`, `self.beta`, `self.ndof`,
`self.use_fvib`. -/
structure RateCalculation where
  tsgraph : TSGraph
  A : Finset Minimum
  B : Finset Minimum
  beta : ℚ
  ndof : Option ℕ
  use_fvib : Bool
deriving DecidableEq

/-- `RateCalculation.__init__`: stores the fields (`beta = 1/T`) and raises
`ValueError` when `ndof is None` while `len(A) > 1 or len(B) > 1`. -/
def RateCalculation.init (graph : TSGraph) (A B : Finset Minimum) (T : ℚ)
    (ndof : Option ℕ) (use_fvib : Bool) : Except PyErr RateCalculation :=
  let rc : RateCalculation :=
    { tsgraph := graph, A := A, B := B, beta := 1 / T, ndof := ndof,
      use_fvib := use_fvib }
  match rc.ndof with
  | none =>
    if rc.A.card > 1 ∨ rc.B.card > 1 then Except.error PyErr.valueError
    else Except.ok rc
  | some _ => Except.ok rc

/-- `networkx.Graph.remove_nodes_from`: removes the nodes and every edge
incident to one of them. -/
def TSGraph.remove_nodes_from (g : TSGraph) (ns : Finset Minimum) : TSGraph :=
  { nodes := g.nodes \ ns,
    edges := g.edges.filter (fun e => e.1 ∉ ns ∧ e.2.1 ∉ ns) }

/-- Adjacency in the undirected graph: some stored edge joins `a` and `b`
in either orientation. -/
def TSGraph.adj (g : TSGraph) (a b : Minimum) : Prop :=
  ∃ e ∈ g.edges, (e.1 = a ∧ e.2.1 = b) ∨ (e.1 = b ∧ e.2.1 = a)

instance (g : TSGraph) (a b : Minimum) : Decidable (g.adj a b) := by
  unfold TSGraph.adj; infer_instance

/-- One breadth-first expansion step: add every node of the graph adjacent
to the current set. -/
def TSGraph.expand (g : TSGraph) (s : Finset Minimum) : Finset Minimum :=
  s ∪ g.nodes.filter (fun v => ∃ w ∈ s, g.adj w v)

/-- `nx.node_connected_component(g, u)`: all nodes reachable from `u`.
Iterating the expansion step `g.nodes.card` times reaches the fixpoint,
since each strict step adds at least one of the finitely many nodes. -/
def TSGraph.component (g : TSGraph) (u : Minimum) : Finset Minimum :=
  (g.expand)^[g.nodes.card] {u}

/-- `networkx.Graph.subgraph(nodes)`: the graph restricted to the given
node set. -/
def TSGraph.subgraph (g : TSGraph) (s : Finset Minimum) : TSGraph :=
  { nodes := g.nodes ∩ s,
    edges := g.edges.filter (fun e => e.1 ∈ s ∧ e.2.1 ∈ s) }

/-- `RateCalculation._reduce_tsgraph`, line by line.  `u` is the anchor
`iter(self.A).next()` (an unspecified member of `A`).

The source reads

    self.A = self.A.difference_update(nodes)

(and the same for `B`): `set.difference_update` mutates in place and
returns `None`, so after this line the attribute holds `None`, and the
following `len(self.A)` / `len(self.B)` raises `TypeError`.  The local
`Option` values below model exactly that. -/
def RateCalculation.reduce_tsgraph (rc : RateCalculation) (u : Minimum) :
    Except PyErr RateCalculation :=
  -- remove nodes with invalid minima
  let invalid_nodes := rc.tsgraph.nodes.filter (fun m => m.invalid = true)
  let g1 := rc.tsgraph.remove_nodes_from invalid_nodes
  -- remove invalid transition states (networkx drops the undirected edge)
  let g2 : TSGraph :=
    { nodes := g1.nodes, edges := g1.edges.filter (fun e => ¬e.2.2.invalid = true) }
  -- u = iter(self.A).next()
  if rc.A = ∅ then Except.error PyErr.stopIteration
  else if u ∉ g2.nodes then Except.error PyErr.keyError
  else
    -- nodes = set(nx.node_connected_component(...)); nodes.add(u)
    let nodes := g2.component u ∪ {u}
    -- self.tsgraph = self.tsgraph.subgraph(nodes)
    let g3 := g2.subgraph nodes
    -- check set A is in the graph
    let Adiff := rc.A \ nodes
    let A' : Option (Finset Minimum) :=
      if Adiff.card > 0 then
        -- self.A = self.A.difference_update(nodes)  (returns None)
        none
      else some rc.A
    -- assert len(self.A) > 0
    match A' with
    | none => Except.error PyErr.typeError
    | some a =>
      if a.card > 0 then
        -- check set B is in the graph
        let Bdiff := rc.B \ nodes
        let B' : Option (Finset Minimum) :=
          if Bdiff.card > 0 then
            -- self.B = self.B.difference_update(nodes)  (returns None)
            none
          else some rc.B
        -- if len(self.B) == 0: raise
        match B' with
        | none => Except.error PyErr.typeError
        | some b =>
          if b.card = 0 then Except.error PyErr.exceptionProductSet
          else Except.ok { rc with tsgraph := g3, A := a, B := b }
      else Except.error PyErr.assertionError

/-- `RateCalculation._get_local_log_rate(min1, min2, ts)`: the log rate for
going from `min1` to `min2` over the transition state `ts` (harmonic TST).
As in the source, `min2` is accepted but not read. -/
noncomputable def RateCalculation.get_local_log_rate (rc : RateCalculation)
    (min1 min2 : Minimum) (ts : TransitionState) : ℝ :=
  if rc.use_fvib = true then
    let sigma : ℝ := (min1.pgorder : ℝ) / (2 * Real.pi * (ts.pgorder : ℝ))
    Real.log sigma + ((min1.fvib : ℝ) - (ts.fvib : ℝ)) / 2
      - ((ts.energy : ℝ) - (min1.energy : ℝ)) * (rc.beta : ℝ)
  else
    -((ts.energy : ℝ) - (min1.energy : ℝ)) * (rc.beta : ℝ)

/-- `RateCalculation._min2node`: a minimum is keyed by its stable id. -/
def RateCalculation.min2node (_rc : RateCalculation) (minimum : Minimum) : ℕ :=
  minimum.id

/-- The `logrates` dict built by `RateCalculation._make_kmc_graph`: for each
stored undirected edge `(min1, min2, ts)` two entries, keyed by the ordered
id pairs, holding the two directed log rates. -/
noncomputable def RateCalculation.logrates (rc : RateCalculation) :
    List ((ℕ × ℕ) × ℝ) :=
  rc.tsgraph.edges.toList.flatMap (fun e =>
    [((rc.min2node e.1, rc.min2node e.2.1), rc.get_local_log_rate e.1 e.2.1 e.2.2),
     ((rc.min2node e.2.1, rc.min2node e.1), rc.get_local_log_rate e.2.1 e.1 e.2.2)])

/-- The `rates` dict of `RateCalculation._make_kmc_graph`: the entrywise
exponential of `logrates`.  This is the mapping handed to
`kmcgraph_from_rates` (the external graph builder). -/
noncomputable def RateCalculation.rates (rc : RateCalculation) :
    List ((ℕ × ℕ) × ℝ) :=
  rc.logrates.map (fun p => (p.1, Real.exp p.2))

/-- `self.Anodes` as set by `_make_kmc_graph`. -/
def RateCalculation.Anodes (rc : RateCalculation) : Finset ℕ :=
  rc.A.image (fun m => rc.min2node m)

/-- `self.Bnodes` as set by `_make_kmc_graph`. -/
def RateCalculation.Bnodes (rc : RateCalculation) : Finset ℕ :=
  rc.B.image (fun m => rc.min2node m)

/-- `RateCalculation._log_equilibrium_occupation_probability(minimum)`
(harmonic superposition).  The source reads `self.ndof` as a number; the
pipeline only calls this when `ndof` was supplied, so the `none` default 0
is unreachable there. -/
noncomputable def RateCalculation.log_equilibrium_occupation_probability
    (rc : RateCalculation) (minimum : Minimum) : ℝ :=
  -(rc.beta : ℝ) * (minimum.energy : ℝ) - Real.log (minimum.pgorder : ℝ)
    - 0.5 * (minimum.fvib : ℝ) - ((rc.ndof.getD 0 : ℕ) : ℝ) * Real.log (rc.beta : ℝ)

/-- The `log_weights` dict of `_get_equilibrium_occupation_probabilities`:
one entry per minimum of `A ∪ B`, keyed by its id. -/
noncomputable def RateCalculation.log_weights (rc : RateCalculation) :
    List (ℕ × ℝ) :=
  (rc.A ∪ rc.B).toList.map
    (fun m => (rc.min2node m, rc.log_equilibrium_occupation_probability m))

/-- `RateCalculation._get_equilibrium_occupation_probabilities`: `None` when
`ndof is None` (after asserting both sets are singletons); otherwise the
log weights over `A ∪ B`, shifted by their maximum and exponentiated. -/
noncomputable def RateCalculation.get_equilibrium_occupation_probabilities
    (rc : RateCalculation) : Except PyErr (Option (List (ℕ × ℝ))) :=
  match rc.ndof with
  | none =>
    -- assert len(self.A) == 1; assert len(self.B) == 1; self.weights = None
    if rc.A.card = 1 then
      if rc.B.card = 1 then Except.ok none
      else Except.error PyErr.assertionError
    else Except.error PyErr.assertionError
  | some _ =>
    -- weight_max = max(log_weights.itervalues())
    match (rc.log_weights.map Prod.snd).max? with
    | none => Except.error PyErr.maxOfEmpty
    | some weight_max =>
      Except.ok (some (rc.log_weights.map
        (fun p => (p.1, Real.exp (p.2 - weight_max)))))

/-! Concrete fixtures used by the witnesses and counterexamples. -/

/-- A valid minimum with id 1. -/
def minP : Minimum := { id := 1, energy := 0, pgorder := 2, fvib := 3, invalid := false }

/-- A valid minimum with id 2. -/
def minQ : Minimum := { id := 2, energy := 1, pgorder := 1, fvib := 1, invalid := false }

/-- A valid minimum with id 3, kept disconnected in the fixtures. -/
def minR : Minimum := { id := 3, energy := 2, pgorder := 1, fvib := 0, invalid := false }

/-- A valid transition state. -/
def tsPQ : TransitionState := { energy := 5, pgorder := 1, fvib := 2, invalid := false }

/-- Fixture graph: `minP — minQ` connected by `tsPQ`, plus the isolated
node `minR`. -/
def gPQR : TSGraph :=
  { nodes := {minP, minQ, minR}, edges := {(minP, minQ, tsPQ)} }

/-- Fixture graph: `minP — minQ` only. -/
def gPQ : TSGraph :=
  { nodes := {minP, minQ}, edges := {(minP, minQ, tsPQ)} }

/-- Fixture graph: nodes `minP`, `minQ` and no edges. -/
def gNoEdge : TSGraph := { nodes := {minP, minQ}, edges := ∅ }

/-- Fixture instance for C1: `A` holds the disconnected node `minR`. -/
def rcDisconnA : RateCalculation :=
  { tsgraph := gPQR, A := {minP, minR}, B := {minP}, beta := 1,
    ndof := some 3, use_fvib := true }

/-- Fixture instance for C2: `B = {minQ}` shares no component with the
anchor `minP` (no edges at all). -/
def rcDisconnB : RateCalculation :=
  { tsgraph := gNoEdge, A := {minP}, B := {minQ}, beta := 1,
    ndof := some 3, use_fvib := true }

instance {ε α : Type} [DecidableEq ε] [DecidableEq α] :
    DecidableEq (Except ε α) := fun a b =>
  match a, b with
  | Except.error e, Except.error f =>
    if h : e = f then isTrue (by rw [h]) else
      isFalse (fun hc => h (Except.error.inj hc))
  | Except.error _, Except.ok _ => isFalse Except.noConfusion
  | Except.ok _, Except.error _ => isFalse Except.noConfusion
  | Except.ok x, Except.ok y =>
    if h : x = y then isTrue (by rw [h]) else
      isFalse (fun hc => h (Except.ok.inj hc))

/-- Fixture instance on the connected two-node graph, with nothing invalid. -/
def rcConn : RateCalculation :=
  { tsgraph := gPQ, A := {minP}, B := {minQ}, beta := 1 / 1,
    ndof := some 3, use_fvib := true }

/-- Fixture instance with no `ndof` and singleton boundary sets. -/
def rcNoNdof : RateCalculation :=
  { tsgraph := gPQ, A := {minP}, B := {minQ}, beta := 1 / 1,
    ndof := none, use_fvib := true }

/-! Claim theorems. -/

/-- Claim C1.  The claim says that when `A` (or `B`) contains a node outside
the anchor's connected component, `_reduce_tsgraph` replaces the set by its
intersection with the surviving nodes and both sets stay valid non-`None`
sets.  The code instead executes `self.A = self.A.difference_update(nodes)`,
whose return value is `None`, so the set attribute becomes `None` and the
subsequent `len(self.A)` raises `TypeError`: on the concrete graph
`minP — minQ` plus the isolated `minR`, with `A = {minP, minR}`,
`B = {minP}` and anchor `minP`, sanitization raises `TypeError` instead of
shrinking `A` to `{minP}`. -/
theorem reduce_tsgraph_typeerror_on_partially_pruned_A :
    rcDisconnA.reduce_tsgraph minP = Except.error PyErr.typeError := by decide

/-- Claim C2.  The claim says that when no member of `B` lies in the
anchor's component, sanitization fails with the disconnected-product-set
error.  On the concrete edgeless graph with nodes `minP, minQ`,
`A = {minP}`, `B = {minQ}` and anchor `minP`, the code instead raises
`TypeError`: `self.B = self.B.difference_update(nodes)` leaves `None` in
`self.B`, and `len(self.B)` fails before the
`Exception("the product set B is empty or not connected to A")` line can
run. -/
theorem reduce_tsgraph_typeerror_on_disconnected_B :
    rcDisconnB.reduce_tsgraph minP = Except.error PyErr.typeError := by decide

/-- Claim C3.  For a successfully constructed calculation, the directed log
rate from `min1` over `ts` equals
`log(pgorder(min1) / (2·π·pgorder(ts))) + (fvib(min1) − fvib(ts))/2 −
(energy(ts) − energy(min1))·β` with `β = 1/T` when the vibrational
correction flag is on, and `−(energy(ts) − energy(min1))·β` when it is
off. -/
theorem get_local_log_rate_formula (graph : TSGraph) (A B : Finset Minimum)
    (T : ℚ) (ndof : Option ℕ) (use_fvib : Bool) (rc : RateCalculation)
    (min1 min2 : Minimum) (ts : TransitionState)
    (h : RateCalculation.init graph A B T ndof use_fvib = Except.ok rc) :
    rc.beta = 1 / T
    ∧ (rc.use_fvib = true →
        rc.get_local_log_rate min1 min2 ts
          = Real.log ((min1.pgorder : ℝ) / (2 * Real.pi * (ts.pgorder : ℝ)))
            + ((min1.fvib : ℝ) - (ts.fvib : ℝ)) / 2
            - ((ts.energy : ℝ) - (min1.energy : ℝ)) * ((1 / T : ℚ) : ℝ))
    ∧ (rc.use_fvib = false →
        rc.get_local_log_rate min1 min2 ts
          = -((ts.energy : ℝ) - (min1.energy : ℝ)) * ((1 / T : ℚ) : ℝ)) := by
  have hrc : rc = ⟨graph, A, B, 1 / T, ndof, use_fvib⟩ := by
    cases hnd : ndof with
    | none =>
      subst hnd
      unfold RateCalculation.init at h
      dsimp only at h
      by_cases hc : A.card > 1 ∨ B.card > 1
      · rw [if_pos hc] at h
        exact Except.noConfusion h
      · rw [if_neg hc] at h
        exact (Except.ok.inj h).symm
    | some n =>
      subst hnd
      unfold RateCalculation.init at h
      dsimp only at h
      exact (Except.ok.inj h).symm
  have hbeta : rc.beta = 1 / T := by rw [hrc]
  have hfv : rc.use_fvib = use_fvib := by rw [hrc]
  refine ⟨hbeta, fun hf => ?_, fun hf => ?_⟩
  · unfold RateCalculation.get_local_log_rate
    rw [hf, if_pos rfl, hbeta]
  · unfold RateCalculation.get_local_log_rate
    rw [hf, if_neg (by simp), hbeta]

/-- Witness for C3 at a concrete input. -/
theorem get_local_log_rate_formula_witness :
    rcConn.beta = 1 / (1 : ℚ)
    ∧ (rcConn.use_fvib = true →
        rcConn.get_local_log_rate minP minQ tsPQ
          = Real.log ((minP.pgorder : ℝ) / (2 * Real.pi * (tsPQ.pgorder : ℝ)))
            + ((minP.fvib : ℝ) - (tsPQ.fvib : ℝ)) / 2
            - ((tsPQ.energy : ℝ) - (minP.energy : ℝ)) * ((1 / 1 : ℚ) : ℝ))
    ∧ (rcConn.use_fvib = false →
        rcConn.get_local_log_rate minP minQ tsPQ
          = -((tsPQ.energy : ℝ) - (minP.energy : ℝ)) * ((1 / 1 : ℚ) : ℝ)) :=
  get_local_log_rate_formula gPQ {minP} {minQ} 1 (some 3) true rcConn
    minP minQ tsPQ (by rfl)

/-- Claim C9.  The directed log rate for `min1 → min2` over `ts` never
depends on the destination minimum: the source accepts `min2` but does not
read it. -/
theorem get_local_log_rate_ignores_destination (rc : RateCalculation)
    (min1 min2 min2' : Minimum) (ts : TransitionState) :
    rc.get_local_log_rate min1 min2 ts = rc.get_local_log_rate min1 min2' ts :=
  rfl

/-- Claim C5.  For every minimum of `A ∪ B` (reached with `ndof` supplied),
the computed log equilibrium occupation probability is exactly
`−β·energy(m) − log(pgorder(m)) − 0.5·fvib(m) − ndof·log(β)`, and it is the
value entered into the `log_weights` dict under the minimum's id. -/
theorem log_equilibrium_occupation_probability_formula (rc : RateCalculation)
    (n : ℕ) (m : Minimum) (hn : rc.ndof = some n) (hm : m ∈ rc.A ∪ rc.B) :
    rc.log_equilibrium_occupation_probability m
      = -(rc.beta : ℝ) * (m.energy : ℝ) - Real.log (m.pgorder : ℝ)
        - 0.5 * (m.fvib : ℝ) - (n : ℝ) * Real.log (rc.beta : ℝ)
    ∧ (rc.min2node m, rc.log_equilibrium_occupation_probability m)
        ∈ rc.log_weights := by
  constructor
  · unfold RateCalculation.log_equilibrium_occupation_probability
    rw [hn]
    rfl
  · unfold RateCalculation.log_weights
    exact List.mem_map_of_mem _ (Finset.mem_toList.mpr hm)

/-- Witness for C5 at a concrete input. -/
theorem log_equilibrium_occupation_probability_formula_witness :
    rcConn.log_equilibrium_occupation_probability minP
      = -(rcConn.beta : ℝ) * (minP.energy : ℝ) - Real.log (minP.pgorder : ℝ)
        - 0.5 * (minP.fvib : ℝ) - ((3 : ℕ) : ℝ) * Real.log (rcConn.beta : ℝ)
    ∧ (rcConn.min2node minP, rcConn.log_equilibrium_occupation_probability minP)
        ∈ rcConn.log_weights :=
  log_equilibrium_occupation_probability_formula rcConn 3 minP rfl (by decide)

/-- Claim C6.  Construction raises `ValueError` exactly in the
documented situation: if `ndof` is missing while `|A| > 1` or `|B| > 1` the
constructor fails immediately, and if `ndof` is supplied, or both sets are
singletons, construction succeeds. -/
theorem init_ndof_configuration_check (graph : TSGraph) (A B : Finset Minimum)
    (T : ℚ) (ndof : Option ℕ) (use_fvib : Bool) :
    ((ndof = none ∧ (A.card > 1 ∨ B.card > 1)) →
      RateCalculation.init graph A B T ndof use_fvib
        = Except.error PyErr.valueError)
    ∧ ((ndof ≠ none ∨ (A.card = 1 ∧ B.card = 1)) →
      ∃ rc, RateCalculation.init graph A B T ndof use_fvib = Except.ok rc) := by
  constructor
  · rintro ⟨rfl, hcard⟩
    unfold RateCalculation.init
    dsimp only
    rw [if_pos hcard]
  · intro h
    cases hnd : ndof with
    | some n =>
      unfold RateCalculation.init
      dsimp only
      exact ⟨_, rfl⟩
    | none =>
      subst hnd
      rcases h with h | ⟨hA, hB⟩
      · exact absurd rfl h
      · unfold RateCalculation.init
        dsimp only
        rw [if_neg (by simp [hA, hB])]
        exact ⟨_, rfl⟩

/-- Witness for C6 at concrete inputs: missing `ndof` with `|A| = 2` is
rejected. -/
theorem init_ndof_configuration_check_witness :
    RateCalculation.init gPQ {minP, minQ} {minQ} 1 none true
      = Except.error PyErr.valueError :=
  (init_ndof_configuration_check gPQ {minP, minQ} {minQ} 1 none true).1
    ⟨rfl, by decide⟩

/-- Flat-mapping a two-element block over a list doubles the length. -/
theorem length_flatMap_two {α β : Type} (l : List α) (f g : α → β) :
    (l.flatMap (fun a => [f a, g a])).length = 2 * l.length := by
  induction l with
  | nil => rfl
  | cons a l ih =>
    simp only [List.flatMap_cons, List.length_append, List.length_cons,
      List.length_nil, ih]
    omega

/-- Claim C7.  Each stored undirected transition-state edge
`(min1, min2, ts)` contributes the two directed entries
`((id(min1), id(min2)), exp(log k(min1→min2)))` and
`((id(min2), id(min1)), exp(log k(min2→min1)))` to the `rates` mapping that
`_make_kmc_graph` passes to the graph builder, and with one such pair per
edge the mapping holds exactly two entries per edge. -/
theorem make_kmc_graph_two_directed_entries (rc : RateCalculation)
    (min1 min2 : Minimum) (ts : TransitionState)
    (h : (min1, min2, ts) ∈ rc.tsgraph.edges) :
    ((rc.min2node min1, rc.min2node min2),
        Real.exp (rc.get_local_log_rate min1 min2 ts)) ∈ rc.rates
    ∧ ((rc.min2node min2, rc.min2node min1),
        Real.exp (rc.get_local_log_rate min2 min1 ts)) ∈ rc.rates
    ∧ rc.rates.length = 2 * rc.tsgraph.edges.card := by
  refine ⟨?_, ?_, ?_⟩
  · unfold RateCalculation.rates RateCalculation.logrates
    apply List.mem_map.mpr
    refine ⟨((rc.min2node min1, rc.min2node min2),
      rc.get_local_log_rate min1 min2 ts), ?_, rfl⟩
    exact List.mem_flatMap.mpr ⟨(min1, min2, ts), Finset.mem_toList.mpr h,
      by simp⟩
  · unfold RateCalculation.rates RateCalculation.logrates
    apply List.mem_map.mpr
    refine ⟨((rc.min2node min2, rc.min2node min1),
      rc.get_local_log_rate min2 min1 ts), ?_, rfl⟩
    exact List.mem_flatMap.mpr ⟨(min1, min2, ts), Finset.mem_toList.mpr h,
      by simp⟩
  · unfold RateCalculation.rates RateCalculation.logrates
    rw [List.length_map, length_flatMap_two, Finset.length_toList]

/-- Witness for C7 at a concrete input. -/
theorem make_kmc_graph_two_directed_entries_witness :
    ((rcConn.min2node minP, rcConn.min2node minQ),
        Real.exp (rcConn.get_local_log_rate minP minQ tsPQ)) ∈ rcConn.rates
    ∧ ((rcConn.min2node minQ, rcConn.min2node minP),
        Real.exp (rcConn.get_local_log_rate minQ minP tsPQ)) ∈ rcConn.rates
    ∧ rcConn.rates.length = 2 * rcConn.tsgraph.edges.card :=
  make_kmc_graph_two_directed_entries rcConn minP minQ tsPQ (by decide)

/-- Claim C8.  With `ndof` missing (and both boundary sets singletons, as
the asserts require), the equilibrium-weighting step returns `None` rather
than a mapping; whenever `ndof` is supplied a successful call returns an
actual mapping. -/
theorem equilibrium_weights_none_without_ndof (rc : RateCalculation) :
    (rc.ndof = none → rc.A.card = 1 → rc.B.card = 1 →
      rc.get_equilibrium_occupation_probabilities = Except.ok none)
    ∧ (∀ n, rc.ndof = some n → ∀ ws,
        rc.get_equilibrium_occupation_probabilities = Except.ok ws →
          ws ≠ none) := by
  constructor
  · intro hn hA hB
    unfold RateCalculation.get_equilibrium_occupation_probabilities
    rw [hn]
    dsimp only
    rw [if_pos hA, if_pos hB]
  · intro n hn ws hws
    unfold RateCalculation.get_equilibrium_occupation_probabilities at hws
    rw [hn] at hws
    dsimp only at hws
    cases hmax : (rc.log_weights.map Prod.snd).max? with
    | none =>
      rw [hmax] at hws
      exact Except.noConfusion hws
    | some weight_max =>
      rw [hmax] at hws
      rw [← Except.ok.inj hws]
      exact Option.noConfusion

/-- Witness for C8 at a concrete input: singleton `A` and `B`, no `ndof`. -/
theorem equilibrium_weights_none_without_ndof_witness :
    rcNoNdof.get_equilibrium_occupation_probabilities = Except.ok none :=
  (equilibrium_weights_none_without_ndof rcNoNdof).1 rfl (by decide) (by decide)

/-- Claim C4.  With `ndof` supplied and `A ∪ B` non-empty, the equilibrium
weights returned are `exp(log_w − max_log_w)` entry by entry, so every
weight is in `(0, 1]` and the maximum weight is exactly `1`. -/
theorem equilibrium_weights_normalized (rc : RateCalculation) (n : ℕ)
    (hn : rc.ndof = some n) (hne : (rc.A ∪ rc.B).Nonempty) :
    ∃ weight_max,
      (rc.log_weights.map Prod.snd).max? = some weight_max
      ∧ rc.get_equilibrium_occupation_probabilities
          = Except.ok (some (rc.log_weights.map
              (fun p => (p.1, Real.exp (p.2 - weight_max)))))
      ∧ (∀ q ∈ rc.log_weights.map
            (fun p => (p.1, Real.exp (p.2 - weight_max))), 0 < q.2 ∧ q.2 ≤ 1)
      ∧ (∃ q ∈ rc.log_weights.map
            (fun p => (p.1, Real.exp (p.2 - weight_max))), q.2 = 1) := by
  have hlw : rc.log_weights ≠ [] := by
    unfold RateCalculation.log_weights
    simp only [ne_eq, List.map_eq_nil_iff, Finset.toList_eq_nil]
    exact Finset.nonempty_iff_ne_empty.mp hne
  have hvals : rc.log_weights.map Prod.snd ≠ [] := by
    simpa using hlw
  obtain ⟨wm, hwm⟩ : ∃ wm, (rc.log_weights.map Prod.snd).max? = some wm := by
    cases hmax : (rc.log_weights.map Prod.snd).max? with
    | none => exact absurd (List.max?_eq_none_iff.mp hmax) hvals
    | some wm => exact ⟨wm, rfl⟩
  haveI : Std.Antisymm ((· : ℝ) ≤ ·) := ⟨le_antisymm⟩
  have hspec := (List.max?_eq_some_iff (fun a => le_refl a)
      (fun a b => max_choice a b) (fun a b c => max_le_iff)).mp hwm
  refine ⟨wm, hwm, ?_, ?_, ?_⟩
  · unfold RateCalculation.get_equilibrium_occupation_probabilities
    rw [hn]
    dsimp only
    rw [hwm]
  · intro q hq
    obtain ⟨p, hp, rfl⟩ := List.mem_map.mp hq
    refine ⟨Real.exp_pos _, Real.exp_le_one_iff.mpr ?_⟩
    have hmem : p.2 ∈ rc.log_weights.map Prod.snd := List.mem_map_of_mem _ hp
    have hle := hspec.2 _ hmem
    linarith
  · obtain ⟨p, hp, hp2⟩ := List.mem_map.mp hspec.1
    refine ⟨(p.1, Real.exp (p.2 - wm)), List.mem_map_of_mem _ hp, ?_⟩
    dsimp only
    rw [hp2, sub_self, Real.exp_zero]

/-- Witness for C4 at a concrete input. -/
theorem equilibrium_weights_normalized_witness :
    ∃ weight_max,
      (rcConn.log_weights.map Prod.snd).max? = some weight_max
      ∧ rcConn.get_equilibrium_occupation_probabilities
          = Except.ok (some (rcConn.log_weights.map
              (fun p => (p.1, Real.exp (p.2 - weight_max)))))
      ∧ (∀ q ∈ rcConn.log_weights.map
            (fun p => (p.1, Real.exp (p.2 - weight_max))), 0 < q.2 ∧ q.2 ≤ 1)
      ∧ (∃ q ∈ rcConn.log_weights.map
            (fun p => (p.1, Real.exp (p.2 - weight_max))), q.2 = 1) :=
  equilibrium_weights_normalized rcConn 3 rfl (by decide)

/-- Removing an empty node set leaves the graph unchanged. -/
theorem TSGraph.remove_nodes_from_empty (g : TSGraph) :
    g.remove_nodes_from ∅ = g := by
  unfold TSGraph.remove_nodes_from
  cases g with
  | mk nodes edges =>
    simp only [TSGraph.mk.injEq]
    exact ⟨Finset.sdiff_empty, Finset.filter_true_of_mem
      (fun e _ => ⟨Finset.not_mem_empty e.1, Finset.not_mem_empty e.2.1⟩)⟩

/-- Claim C10.  If nothing in the graph is flagged invalid and every node
lies in the connected component of the chosen anchor `u ∈ A`, then
`_reduce_tsgraph` succeeds and leaves the sets `A` and `B` unchanged. -/
theorem reduce_tsgraph_frame (rc : RateCalculation) (u : Minimum)
    (hu : u ∈ rc.A)
    (hnodes : ∀ m ∈ rc.tsgraph.nodes, m.invalid = false)
    (hedges : ∀ e ∈ rc.tsgraph.edges, e.2.2.invalid = false)
    (hA : rc.A ⊆ rc.tsgraph.nodes) (hB : rc.B ⊆ rc.tsgraph.nodes)
    (hBne : rc.B.Nonempty)
    (hconn : ∀ v ∈ rc.tsgraph.nodes, v ∈ rc.tsgraph.component u) :
    ∃ g', rc.reduce_tsgraph u = Except.ok { rc with tsgraph := g' } := by
  have hinv : rc.tsgraph.nodes.filter (fun m => m.invalid = true) = ∅ :=
    Finset.filter_eq_empty_iff.mpr (fun {m} hm => by simp [hnodes m hm])
  have hedg : rc.tsgraph.edges.filter (fun e => ¬e.2.2.invalid = true)
      = rc.tsgraph.edges :=
    Finset.filter_true_of_mem (fun e he => by simp [hedges e he])
  have hAne : rc.A ≠ ∅ := Finset.nonempty_iff_ne_empty.mp ⟨u, hu⟩
  have hun : u ∈ rc.tsgraph.nodes := hA hu
  have hAdiff : rc.A \ (rc.tsgraph.component u ∪ {u}) = ∅ :=
    Finset.sdiff_eq_empty_iff_subset.mpr
      (fun x hx => Finset.mem_union_left _ (hconn x (hA hx)))
  have hBdiff : rc.B \ (rc.tsgraph.component u ∪ {u}) = ∅ :=
    Finset.sdiff_eq_empty_iff_subset.mpr
      (fun x hx => Finset.mem_union_left _ (hconn x (hB hx)))
  unfold RateCalculation.reduce_tsgraph
  dsimp only
  rw [hinv, TSGraph.remove_nodes_from_empty]
  rw [hedg]
  have hgeta : ({ nodes := rc.tsgraph.nodes, edges := rc.tsgraph.edges }
      : TSGraph) = rc.tsgraph := rfl
  rw [hgeta]
  rw [if_neg hAne, if_neg (by simpa using hun)]
  rw [hAdiff]
  rw [if_neg (by simp)]
  dsimp only
  rw [if_pos (Finset.card_pos.mpr ⟨u, hu⟩)]
  rw [hBdiff]
  rw [if_neg (by simp)]
  dsimp only
  rw [if_neg (by simpa [Finset.card_eq_zero] using
    Finset.nonempty_iff_ne_empty.mp hBne)]
  exact ⟨_, rfl⟩

/-- Witness for C10 at a concrete input: the connected two-node graph. -/
theorem reduce_tsgraph_frame_witness :
    ∃ g', rcConn.reduce_tsgraph minP = Except.ok { rcConn with tsgraph := g' } :=
  reduce_tsgraph_frame rcConn minP (by decide) (by decide) (by decide)
    (by decide) (by decide) (by decide) (by decide)

end PeleRates
